import Mathlib

/-!
Verification of the budgeting app's aggregation engine and transaction
service.  The aggregation functions (`calculateMonthlyData`,
`calculateAnnualData`, `expensesByCategory`, `monthlyChartData`) are
embedded from the client component, the persistence operations from the
API route handlers and the mongoose schema.  JavaScript numbers are
modeled as exact rationals; JavaScript objects keyed by strings are
modeled as association lists in insertion order (string keys used here
are never array indices, so insertion order is what the runtime
enumerates).
-/

namespace Budget

/-- A transaction record as the client and the store see it.  The mongoose
schema declares `type` as a plain `String` (no enum validator), so the
field is a free string here; the client-side TypeScript annotation
`"income" | "expense"` is erased at runtime. -/
structure Transaction where
  _id : String
  description : String
  amount : ℚ
  type : String
  category : String
  date : String
deriving DecidableEq, Repr

/-- `transaction.date.substring(0, 7)`: the year-month key. -/
def monthYear (t : Transaction) : String := t.date.take 7

/-- One value of the `MonthlyData` map: running income, expenses, balance
and the list of transactions pushed into the bucket. -/
structure Bucket where
  income : ℚ
  expenses : ℚ
  balance : ℚ
  transactions : List Transaction
deriving DecidableEq, Repr

/-- The freshly created bucket `{ income: 0, expenses: 0, balance: 0,
transactions: [] }`. -/
def freshBucket : Bucket := ⟨0, 0, 0, []⟩

/-- The body of the `forEach` loop once the bucket for the key exists:
add the amount to income or expenses depending on `type === "income"`,
recompute the balance, push the transaction. -/
def updateBucket (b : Bucket) (t : Transaction) : Bucket :=
  let b1 :=
    if t.type == "income" then { b with income := b.income + t.amount }
    else { b with expenses := b.expenses + t.amount }
  let b2 := { b1 with balance := b1.income - b1.expenses }
  { b2 with transactions := b2.transactions ++ [t] }

/-- The `monthlyData` object: an association list from year-month keys to
buckets, in key-insertion order. -/
def MonthlyData : Type := List (String × Bucket)

instance : DecidableEq MonthlyData := by
  unfold MonthlyData
  infer_instance

/-- Whether the object already has the key (`!monthlyData[monthYear]`
negated; buckets are never falsy once created). -/
def hasKey (m : List (String × Bucket)) (k : String) : Bool :=
  m.any (fun p => p.1 == k)

/-- One iteration of the `forEach`: create the bucket if the key is
absent (new keys are appended at the end of the object), then update the
bucket stored at the key. -/
def insertTxn (m : List (String × Bucket)) (t : Transaction) :
    List (String × Bucket) :=
  if hasKey m (monthYear t) then
    m.map (fun p => if p.1 == monthYear t then (p.1, updateBucket p.2 t) else p)
  else
    m ++ [(monthYear t, updateBucket freshBucket t)]

/-- `calculateMonthlyData`: fold the transaction list through the loop
body starting from the empty object. -/
def calculateMonthlyData (ts : List Transaction) : List (String × Bucket) :=
  ts.foldl insertTxn []

/-- The `annualData` accumulator. -/
structure Annual where
  income : ℚ
  expenses : ℚ
  balance : ℚ
deriving DecidableEq, Repr

/-- The body of the annual `forEach`. -/
def annualStep (a : Annual) (t : Transaction) : Annual :=
  if t.type == "income" then { a with income := a.income + t.amount }
  else { a with expenses := a.expenses + t.amount }

/-- `calculateAnnualData`: accumulate income and expenses over the whole
list, then set `balance = income - expenses` once at the end. -/
def calculateAnnualData (ts : List Transaction) : Annual :=
  let a := ts.foldl annualStep ⟨0, 0, 0⟩
  { a with balance := a.income - a.expenses }

/-- One iteration of the category loop: only expense-type transactions
touch the object; `(categories[c] || 0) + amount` reads the current value
with default `0` (stored values are numbers, and a stored `0` also reads
back as `0` through `|| 0`). -/
def catStep (m : List (String × ℚ)) (t : Transaction) : List (String × ℚ) :=
  if t.type == "expense" then
    if m.any (fun p => p.1 == t.category) then
      m.map (fun p => if p.1 == t.category then (p.1, p.2 + t.amount) else p)
    else
      m ++ [(t.category, t.amount)]
  else m

/-- The `categories` object built by the loop in `expensesByCategory`. -/
def categoriesOf (ts : List Transaction) : List (String × ℚ) :=
  ts.foldl catStep []

/-- A `{ name, value }` datum for the pie chart. -/
structure NamedValue where
  name : String
  value : ℚ
deriving DecidableEq, Repr

/-- `expensesByCategory`: `Object.entries(categories).map(([name, value])
=> ({ name, value }))`. -/
def expensesByCategory (ts : List Transaction) : List NamedValue :=
  (categoriesOf ts).map (fun p => ⟨p.1, p.2⟩)

/-- Numeric value of a decimal digit character. -/
def digitVal (c : Char) : ℕ := c.toNat - 48

/-- A well-formed year-month key `YYYY-MM` with a real month number. -/
def validMonthKey (s : String) : Bool :=
  match s.toList with
  | [a, b, c, d, dash, e, f] =>
      a.isDigit && b.isDigit && c.isDigit && d.isDigit && dash == '-' &&
      e.isDigit && f.isDigit &&
      decide (1 ≤ 10 * digitVal e + digitVal f) &&
      decide (10 * digitVal e + digitVal f ≤ 12)
  | _ => false

/-- The calendar time represented by a `YYYY-MM` key, abstracted to a
month counter (strictly monotone in the epoch time of the month, which is
all the sort comparator observes). -/
def monthTime (s : String) : ℕ :=
  match s.toList with
  | [a, b, c, d, _, e, f] =>
      (1000 * digitVal a + 100 * digitVal b + 10 * digitVal c + digitVal d)
        * 12 + (10 * digitVal e + digitVal f)
  | _ => 0

/-- The en-US short month names used by
`toLocaleString("default", { month: "short", year: "numeric" })`. -/
def monthShortName (m : ℕ) : String :=
  match m with
  | 1 => "Jan" | 2 => "Feb" | 3 => "Mar" | 4 => "Apr"
  | 5 => "May" | 6 => "Jun" | 7 => "Jul" | 8 => "Aug"
  | 9 => "Sep" | 10 => "Oct" | 11 => "Nov" | 12 => "Dec"
  | _ => "Invalid"

/-- Model of `new Date(month).toLocaleString("default", { month: "short",
year: "numeric" })` on a well-formed `YYYY-MM` key: the short month name,
a space, and the year digits.  Ill-formed keys give an invalid date. -/
def formatLocaleMonth (s : String) : String :=
  match s.toList with
  | [a, b, c, d, dash, e, f] =>
      if validMonthKey (String.mk [a, b, c, d, dash, e, f]) then
        monthShortName (10 * digitVal e + digitVal f) ++ " " ++
          String.mk [a, b, c, d]
      else "Invalid Date"
  | _ => "Invalid Date"

/-- Inverse lookup of the short month name table. -/
def monthOfShortName (s : String) : Option ℕ :=
  (List.range 12).findSome?
    (fun i => if monthShortName (i + 1) == s then some (i + 1) else none)

/-- Model of `new Date(name).getTime()` on a chart label: parse the short
month name and the year back and return the month counter; labels that do
not parse give no time (`NaN`). -/
def parseNameTime (s : String) : Option ℕ :=
  match s.toList with
  | [m1, m2, m3, sp, a, b, c, d] =>
      if sp == ' ' && a.isDigit && b.isDigit && c.isDigit && d.isDigit then
        match monthOfShortName (String.mk [m1, m2, m3]) with
        | some m => some
            ((1000 * digitVal a + 100 * digitVal b + 10 * digitVal c +
              digitVal d) * 12 + m)
        | none => none
      else none
  | _ => none

/-- A point of the bar/line chart series. -/
structure ChartEntry where
  name : String
  income : ℚ
  expenses : ℚ
  balance : ℚ
deriving DecidableEq, Repr

/-- The `.map(([month, data]) => ...)` step of `monthlyChartData`. -/
def toChartEntry (p : String × Bucket) : ChartEntry :=
  ⟨formatLocaleMonth p.1, p.2.income, p.2.expenses, p.2.balance⟩

/-- The comparator `(a, b) => new Date(a.name).getTime() - new
Date(b.name).getTime()`, as the ordering it induces on parseable
labels. -/
def chartLe (a b : ChartEntry) : Bool :=
  (parseNameTime a.name).getD 0 ≤ (parseNameTime b.name).getD 0

/-- `monthlyChartData`: project the buckets to chart entries and sort by
the parsed date of the label (`Array.prototype.sort` is stable and, with
this comparator, agrees with a stable merge sort). -/
def monthlyChartData (ts : List Transaction) : List ChartEntry :=
  ((calculateMonthlyData ts).map toChartEntry).mergeSort chartLe

/-- The sort key the comparator computes for an entry: the time of the
parsed label. -/
def chartTime (x : ChartEntry) : ℕ :=
  (parseNameTime x.name).getD 0

/-- The document collection: documents keyed by their `_id`.  The store
assigns `_id`s, so ids are unique in any reachable store. -/
def Store : Type := List (String × Transaction)

instance : DecidableEq Store := by
  unfold Store
  infer_instance

/-- The ids present in a store. -/
def storeIds (s : List (String × Transaction)) : List String :=
  s.map Prod.fst

/-- `Transaction.findByIdAndUpdate(id, body, { new: true })`: replace the
document when the id is present and return the updated document, return
`null` and touch nothing when it is absent. -/
def findByIdAndUpdate (s : List (String × Transaction)) (id : String)
    (body : Transaction) : Option Transaction × List (String × Transaction) :=
  if s.any (fun p => p.1 == id) then
    (some { body with _id := id },
     s.map (fun p => if p.1 == id then (p.1, { body with _id := id }) else p))
  else (none, s)

/-- The `PUT` handler: forward to `findByIdAndUpdate` and serialize the
result (JSON `null` when the document was not found). -/
def putHandler (s : List (String × Transaction)) (id : String)
    (body : Transaction) : Option Transaction × List (String × Transaction) :=
  findByIdAndUpdate s id body

/-- `Transaction.findByIdAndDelete(id)`: remove the document with the id
when present (ids are unique, so at most one document matches). -/
def findByIdAndDelete (s : List (String × Transaction)) (id : String) :
    List (String × Transaction) :=
  s.eraseP (fun p => p.1 == id)

/-- The `DELETE` handler: delete and always answer the fixed confirmation
message. -/
def deleteHandler (s : List (String × Transaction)) (id : String) :
    String × List (String × Transaction) :=
  ("Transaction deleted successfully", findByIdAndDelete s id)

/-- A JSON scalar as it may arrive in a request body field. -/
inductive JsonValue where
  | num (q : ℚ)
  | str (s : String)
  | null
deriving DecidableEq, Repr

/-- The `POST` request body `{description, amount, type, category, date}`;
`amount` arrives as an arbitrary JSON scalar, the other fields as
strings. -/
structure CreateBody where
  description : String
  amount : JsonValue
  type : String
  category : String
  date : String
deriving DecidableEq, Repr

/-- Whether a string is a plain run of decimal digits. -/
def allDigits (l : List Char) : Bool :=
  l.all Char.isDigit

/-- Digit run to number. -/
def digitsToNat (l : List Char) : ℕ :=
  l.foldl (fun n c => 10 * n + digitVal c) 0

/-- The mongoose `Number` cast applied by the schema to `amount` on save:
JSON numbers pass through, numeric strings are parsed, anything else
raises a `CastError`.  (Numeric strings are modeled as digit runs; the
claims only need that some strings parse and some do not.) -/
def castAmount (v : JsonValue) : Option ℚ :=
  match v with
  | .num q => some q
  | .str s =>
      if allDigits s.toList && !s.toList.isEmpty
      then some ((digitsToNat s.toList : ℤ) : ℚ)
      else none
  | .null => none

/-- What `POST` answers: the created document echoed back, or the
uncaught exception from `save()` surfacing as a server error (the handler
has no try/catch, so a failed cast is a 500, not a 4xx). -/
inductive PostResponse where
  | created (doc : String × Transaction)
  | serverError
deriving DecidableEq, Repr

/-- The `POST` handler: `new Transaction(body)` casts the fields per the
schema (`type` is a plain `String`, stored verbatim with no enum check),
`save()` inserts the document with a fresh store-assigned id. -/
def postHandler (s : List (String × Transaction)) (freshId : String)
    (body : CreateBody) : PostResponse × List (String × Transaction) :=
  match castAmount body.amount with
  | none => (.serverError, s)
  | some q =>
      let doc : Transaction :=
        ⟨freshId, body.description, q, body.type, body.category, body.date⟩
      (.created (freshId, doc), s ++ [(freshId, doc)])

/-! ### Association-list helpers and specification-side totals -/

/-- Read a property of a JavaScript object modeled as an association
list: the value at the first matching key, if any. -/
def lookupA {β : Type} (m : List (String × β)) (k : String) : Option β :=
  (m.find? (fun p => p.1 == k)).map Prod.snd

/-- The keys of the object, in entry order. -/
def keysOf {β : Type} (m : List (String × β)) : List String :=
  m.map Prod.fst

/-- Sum of amounts of the income-typed transactions of a list. -/
def incomeTotal (ts : List Transaction) : ℚ :=
  ((ts.filter fun t => t.type == "income").map Transaction.amount).sum

/-- Sum of amounts of the non-income transactions of a list (everything
the aggregation loops treat as an expense). -/
def expenseTotal (ts : List Transaction) : ℚ :=
  ((ts.filter fun t => !(t.type == "income")).map Transaction.amount).sum

/-- Sum of amounts of the transactions typed exactly `"expense"`. -/
def expenseOnlyTotal (ts : List Transaction) : ℚ :=
  ((ts.filter fun t => t.type == "expense").map Transaction.amount).sum

/-- Sum of the `income` fields over all buckets of the map. -/
def bucketIncomeSum (m : List (String × Bucket)) : ℚ :=
  (m.map fun p => p.2.income).sum

/-- Sum of the `expenses` fields over all buckets of the map. -/
def bucketExpenseSum (m : List (String × Bucket)) : ℚ :=
  (m.map fun p => p.2.expenses).sum

/-- Sum of the `balance` fields over all buckets of the map. -/
def bucketBalanceSum (m : List (String × Bucket)) : ℚ :=
  (m.map fun p => p.2.balance).sum

/-- Run a list of transactions through the bucket-update loop body. -/
def procB (b : Bucket) (l : List Transaction) : Bucket :=
  l.foldl updateBucket b

/-- The bucket the monthly aggregation is specified to produce for key
`k`: totals over the transactions whose year-month is `k`. -/
def bucketFor (ts : List Transaction) (k : String) : Bucket :=
  ⟨incomeTotal (ts.filter fun t => monthYear t == k),
   expenseTotal (ts.filter fun t => monthYear t == k),
   incomeTotal (ts.filter fun t => monthYear t == k) -
     expenseTotal (ts.filter fun t => monthYear t == k),
   ts.filter fun t => monthYear t == k⟩

/-- The order-insensitive numeric content of a bucket. -/
def bucketNums (b : Bucket) : ℚ × ℚ × ℚ :=
  (b.income, b.expenses, b.balance)

/-- Sample transaction: the spec's income example. -/
def tx1 : Transaction := ⟨"1", "salary", 1000, "income", "work", "2024-01-05"⟩

/-- Sample transaction: the spec's first expense example. -/
def tx2 : Transaction := ⟨"2", "groceries", 200, "expense", "food", "2024-01-10"⟩

/-- Sample transaction: the spec's second expense example. -/
def tx3 : Transaction := ⟨"3", "snacks", 50, "expense", "food", "2024-02-01"⟩

/-- Sample transaction with a type outside the income/expense enum. -/
def txOdd : Transaction := ⟨"4", "weird", 5, "banana", "misc", "2024-03-01"⟩

theorem lookupA_nil {β : Type} (k : String) :
    lookupA ([] : List (String × β)) k = none := rfl

theorem hasKeyA_iff {β : Type} (m : List (String × β)) (k : String) :
    m.any (fun p => p.1 == k) = true ↔ (lookupA m k).isSome = true := by
  simp [lookupA, List.any_eq_true, List.find?_isSome]

theorem mem_keysOf_iff {β : Type} (m : List (String × β)) (k : String) :
    k ∈ keysOf m ↔ (lookupA m k).isSome = true := by
  rw [← hasKeyA_iff]
  simp [keysOf, List.any_eq_true]

theorem lookupA_map_update {β : Type} (m : List (String × β)) (k k2 : String)
    (f : β → β) :
    lookupA (m.map fun p => if p.1 == k then (p.1, f p.2) else p) k2 =
      if k2 = k then (lookupA m k2).map f else lookupA m k2 := by
  unfold lookupA
  rw [List.find?_map]
  have hcomp : ((fun p : String × β => p.1 == k2) ∘
      fun p => if p.1 == k then (p.1, f p.2) else p) = fun p => p.1 == k2 := by
    funext p
    by_cases h : p.1 = k <;> simp [h]
  rw [hcomp]
  cases hf : m.find? (fun p => p.1 == k2) with
  | none => simp
  | some p =>
      have hp : p.1 = k2 := by simpa using List.find?_some hf
      by_cases hkk : k2 = k
      · subst hkk
        simp [hp]
      · have hne : ¬(p.1 = k) := by rw [hp]; exact hkk
        simp [hne, hkk]

theorem keysOf_map_update {β : Type} (m : List (String × β)) (k : String)
    (f : β → β) :
    keysOf (m.map fun p => if p.1 == k then (p.1, f p.2) else p) = keysOf m := by
  unfold keysOf
  rw [List.map_map]
  apply List.map_congr_left
  intro p _
  by_cases h : p.1 = k <;> simp [h]

theorem lookupA_append {β : Type} (m m2 : List (String × β)) (k : String) :
    lookupA (m ++ m2) k = (lookupA m k).or (lookupA m2 k) := by
  unfold lookupA
  rw [List.find?_append]
  cases m.find? (fun p => p.1 == k) <;> simp

theorem lookupA_not_found {β : Type} (m : List (String × β)) (k : String)
    (h : ¬(m.any (fun p => p.1 == k) = true)) : lookupA m k = none := by
  cases hl : lookupA m k with
  | none => rfl
  | some b => exact absurd ((hasKeyA_iff m k).mpr (by simp [hl])) h

/-! ### Characterization of `calculateMonthlyData` -/

theorem lookupA_insertTxn (m : List (String × Bucket)) (t : Transaction)
    (k : String) :
    lookupA (insertTxn m t) k =
      if k = monthYear t
      then some (updateBucket ((lookupA m k).getD freshBucket) t)
      else lookupA m k := by
  unfold insertTxn hasKey
  by_cases hk : m.any (fun p => p.1 == monthYear t) = true
  · rw [if_pos hk, lookupA_map_update m (monthYear t) k (fun b => updateBucket b t)]
    by_cases hkk : k = monthYear t
    · rw [if_pos hkk, if_pos hkk]
      have hsome : (lookupA m k).isSome = true := by
        rw [hkk]
        exact (hasKeyA_iff m (monthYear t)).mp hk
      cases hl : lookupA m k with
      | none => rw [hl] at hsome; cases hsome
      | some b => rfl
    · rw [if_neg hkk, if_neg hkk]
  · rw [if_neg hk, lookupA_append]
    have hnone : lookupA m (monthYear t) = none := lookupA_not_found m _ hk
    by_cases hkk : k = monthYear t
    · have hk0 : lookupA m k = none := by rw [hkk]; exact hnone
      have hone : lookupA [(monthYear t, updateBucket freshBucket t)] k =
          some (updateBucket freshBucket t) := by
        unfold lookupA
        rw [List.find?_cons_of_pos _ (by simp [hkk])]
        rfl
      rw [if_pos hkk, hk0, hone]
      rfl
    · rw [if_neg hkk]
      have hone : lookupA [(monthYear t, updateBucket freshBucket t)] k = none := by
        unfold lookupA
        rw [List.find?_cons_of_neg _ (by simp; exact fun h => hkk h.symm)]
        rfl
      rw [hone]
      cases lookupA m k <;> rfl

theorem keysOf_insertTxn (m : List (String × Bucket)) (t : Transaction) :
    keysOf (insertTxn m t) =
      if hasKey m (monthYear t) then keysOf m
      else keysOf m ++ [monthYear t] := by
  unfold insertTxn
  by_cases h : hasKey m (monthYear t) = true
  · rw [if_pos h, if_pos h,
      keysOf_map_update m (monthYear t) (fun b => updateBucket b t)]
  · rw [if_neg h, if_neg h]
    simp [keysOf]

theorem keysOf_insertTxn_nodup (m : List (String × Bucket)) (t : Transaction)
    (h : (keysOf m).Nodup) : (keysOf (insertTxn m t)).Nodup := by
  rw [keysOf_insertTxn]
  by_cases hk : hasKey m (monthYear t) = true
  · simpa [hk]
  · rw [if_neg hk]
    have hmem : monthYear t ∉ keysOf m := by
      intro hmem
      exact hk ((hasKeyA_iff m _).mpr ((mem_keysOf_iff m _).mp hmem))
    simp [List.nodup_append, h, hmem]

theorem lookupA_foldl_insertTxn (ts : List Transaction) :
    ∀ (m : List (String × Bucket)) (k : String),
      lookupA (ts.foldl insertTxn m) k =
        (ts.filter fun t => monthYear t == k).foldl
          (fun ob t => some (updateBucket (ob.getD freshBucket) t))
          (lookupA m k) := by
  induction ts with
  | nil => intro m k; rfl
  | cons t rest ih =>
      intro m k
      rw [List.foldl_cons, ih]
      by_cases h : monthYear t = k
      · rw [List.filter_cons_of_pos (by simp [h]), List.foldl_cons,
          lookupA_insertTxn, if_pos h.symm]
      · rw [List.filter_cons_of_neg (by simp [h]), lookupA_insertTxn,
          if_neg (fun hh => h hh.symm)]

theorem optFold_updateBucket (l : List Transaction) :
    ∀ ob : Option Bucket,
      l.foldl (fun ob t => some (updateBucket (ob.getD freshBucket) t)) ob =
        if l.isEmpty then ob else some (procB (ob.getD freshBucket) l) := by
  induction l with
  | nil => intro ob; rfl
  | cons t rest ih =>
      intro ob
      rw [List.foldl_cons, ih]
      cases rest with
      | nil => simp [procB]
      | cons u us => simp [procB]

theorem updateBucket_income (b : Bucket) (t : Transaction) :
    (updateBucket b t).income =
      b.income + (if t.type == "income" then t.amount else 0) := by
  unfold updateBucket
  by_cases h : t.type == "income" <;> simp [h]

theorem updateBucket_expenses (b : Bucket) (t : Transaction) :
    (updateBucket b t).expenses =
      b.expenses + (if t.type == "income" then 0 else t.amount) := by
  unfold updateBucket
  by_cases h : t.type == "income" <;> simp [h]

theorem updateBucket_transactions (b : Bucket) (t : Transaction) :
    (updateBucket b t).transactions = b.transactions ++ [t] := by
  unfold updateBucket
  by_cases h : t.type == "income" <;> simp [h]

theorem updateBucket_balance (b : Bucket) (t : Transaction) :
    (updateBucket b t).balance =
      (updateBucket b t).income - (updateBucket b t).expenses := by
  unfold updateBucket
  by_cases h : t.type == "income" <;> simp [h]

theorem incomeTotal_nil : incomeTotal [] = 0 := rfl

theorem expenseTotal_nil : expenseTotal [] = 0 := rfl

theorem incomeTotal_cons (t : Transaction) (ts : List Transaction) :
    incomeTotal (t :: ts) =
      (if t.type == "income" then t.amount else 0) + incomeTotal ts := by
  unfold incomeTotal
  by_cases h : t.type == "income" <;> simp [List.filter_cons, h]

theorem expenseTotal_cons (t : Transaction) (ts : List Transaction) :
    expenseTotal (t :: ts) =
      (if t.type == "income" then 0 else t.amount) + expenseTotal ts := by
  unfold expenseTotal
  by_cases h : t.type == "income" <;> simp [List.filter_cons, h]

theorem incomeTotal_append (l1 l2 : List Transaction) :
    incomeTotal (l1 ++ l2) = incomeTotal l1 + incomeTotal l2 := by
  unfold incomeTotal
  rw [List.filter_append, List.map_append, List.sum_append]

theorem expenseTotal_append (l1 l2 : List Transaction) :
    expenseTotal (l1 ++ l2) = expenseTotal l1 + expenseTotal l2 := by
  unfold expenseTotal
  rw [List.filter_append, List.map_append, List.sum_append]

theorem procB_income (l : List Transaction) :
    ∀ b : Bucket, (procB b l).income = b.income + incomeTotal l := by
  induction l with
  | nil => intro b; simp [procB, incomeTotal_nil]
  | cons t rest ih =>
      intro b
      have hstep : procB b (t :: rest) = procB (updateBucket b t) rest := rfl
      rw [hstep, ih, updateBucket_income, incomeTotal_cons]
      ring

theorem procB_expenses (l : List Transaction) :
    ∀ b : Bucket, (procB b l).expenses = b.expenses + expenseTotal l := by
  induction l with
  | nil => intro b; simp [procB, expenseTotal_nil]
  | cons t rest ih =>
      intro b
      have hstep : procB b (t :: rest) = procB (updateBucket b t) rest := rfl
      rw [hstep, ih, updateBucket_expenses, expenseTotal_cons]
      ring

theorem procB_transactions (l : List Transaction) :
    ∀ b : Bucket, (procB b l).transactions = b.transactions ++ l := by
  induction l with
  | nil => intro b; simp [procB]
  | cons t rest ih =>
      intro b
      have hstep : procB b (t :: rest) = procB (updateBucket b t) rest := rfl
      rw [hstep, ih, updateBucket_transactions]
      simp

theorem procB_balance :
    ∀ (l : List Transaction) (b : Bucket), l ≠ [] →
      (procB b l).balance = (procB b l).income - (procB b l).expenses := by
  intro l
  induction l with
  | nil => intro b h; exact absurd rfl h
  | cons t rest ih =>
      intro b _
      cases rest with
      | nil => exact updateBucket_balance b t
      | cons u us =>
          have hstep : procB b (t :: u :: us) = procB (updateBucket b t) (u :: us) := rfl
          rw [hstep]
          exact ih (updateBucket b t) (by simp)

theorem bucket_fields_eq (b c : Bucket) (h1 : b.income = c.income)
    (h2 : b.expenses = c.expenses) (h3 : b.balance = c.balance)
    (h4 : b.transactions = c.transactions) : b = c := by
  cases b; cases c
  simp only at h1 h2 h3 h4
  rw [h1, h2, h3, h4]

/-- The master characterization of the monthly aggregation: the bucket
stored at key `k` exists exactly when some transaction falls in that
month, and then its fields are the totals over the transactions whose
year-month is `k`. -/
theorem lookup_calculateMonthlyData (ts : List Transaction) (k : String) :
    lookupA (calculateMonthlyData ts) k =
      if (ts.filter fun t => monthYear t == k).isEmpty then none
      else some (bucketFor ts k) := by
  unfold calculateMonthlyData
  rw [lookupA_foldl_insertTxn, lookupA_nil, optFold_updateBucket]
  by_cases h : (ts.filter fun t => monthYear t == k).isEmpty
  · rw [if_pos h, if_pos h]
  · rw [if_neg h, if_neg h]
    have hne : (ts.filter fun t => monthYear t == k) ≠ [] := by
      intro hnil
      rw [hnil] at h
      exact h rfl
    congr 1
    apply bucket_fields_eq
    · rw [procB_income]
      simp [bucketFor, freshBucket]
    · rw [procB_expenses]
      simp [bucketFor, freshBucket]
    · rw [procB_balance _ _ hne, procB_income, procB_expenses]
      simp [bucketFor, freshBucket]
    · rw [procB_transactions]
      simp [bucketFor, freshBucket]

theorem keysOf_calculateMonthlyData_nodup (ts : List Transaction) :
    (keysOf (calculateMonthlyData ts)).Nodup := by
  unfold calculateMonthlyData
  have hgen : ∀ (l : List Transaction) (m : List (String × Bucket)),
      (keysOf m).Nodup → (keysOf (l.foldl insertTxn m)).Nodup := by
    intro l
    induction l with
    | nil => intro m h; exact h
    | cons t rest ih =>
        intro m h
        rw [List.foldl_cons]
        exact ih _ (keysOf_insertTxn_nodup m t h)
  exact hgen ts [] (by simp [keysOf])

/-! ### Sums over all buckets -/

theorem bucketIncomeSum_cons (p : String × Bucket) (m : List (String × Bucket)) :
    bucketIncomeSum (p :: m) = p.2.income + bucketIncomeSum m := by
  simp [bucketIncomeSum]

theorem bucketExpenseSum_cons (p : String × Bucket) (m : List (String × Bucket)) :
    bucketExpenseSum (p :: m) = p.2.expenses + bucketExpenseSum m := by
  simp [bucketExpenseSum]

theorem bucketIncomeSum_map_update (m : List (String × Bucket)) (k : String)
    (t : Transaction) (hnd : (keysOf m).Nodup) :
    bucketIncomeSum (m.map fun p => if p.1 == k then (p.1, updateBucket p.2 t) else p) =
      bucketIncomeSum m +
        (if (lookupA m k).isSome then (if t.type == "income" then t.amount else 0) else 0) := by
  induction m with
  | nil => simp [bucketIncomeSum, lookupA]
  | cons p rest ih =>
      have hndr : (keysOf rest).Nodup := (List.nodup_cons.mp hnd).2
      by_cases hp : p.1 = k
      · have hrest : rest.map (fun q => if q.1 == k then (q.1, updateBucket q.2 t) else q) = rest := by
          have hnotin : p.1 ∉ keysOf rest := (List.nodup_cons.mp hnd).1
          have : ∀ q ∈ rest, (if q.1 == k then (q.1, updateBucket q.2 t) else q) = q := by
            intro q hq
            have hqk : ¬(q.1 = k) := by
              intro hqk
              apply hnotin
              rw [hp, ← hqk]
              exact List.mem_map_of_mem Prod.fst hq
            simp [hqk]
          calc rest.map (fun q => if q.1 == k then (q.1, updateBucket q.2 t) else q)
              = rest.map id := List.map_congr_left (by simpa using this)
            _ = rest := List.map_id rest
        have hsome : (lookupA (p :: rest) k).isSome = true := by
          unfold lookupA
          rw [List.find?_cons_of_pos _ (by simp [hp])]
          rfl
        rw [List.map_cons, hrest, hsome]
        simp only [hp, beq_self_eq_true, if_true, if_pos]
        rw [bucketIncomeSum_cons, bucketIncomeSum_cons, updateBucket_income]
        ring
      · have hlk : lookupA (p :: rest) k = lookupA rest k := by
          unfold lookupA
          rw [List.find?_cons_of_neg _ (by simp [hp])]
        rw [List.map_cons, hlk]
        have hhead : (if p.1 == k then (p.1, updateBucket p.2 t) else p) = p :=
          if_neg (by simp [hp])
        rw [hhead, bucketIncomeSum_cons, bucketIncomeSum_cons, ih hndr]
        ring

theorem bucketExpenseSum_map_update (m : List (String × Bucket)) (k : String)
    (t : Transaction) (hnd : (keysOf m).Nodup) :
    bucketExpenseSum (m.map fun p => if p.1 == k then (p.1, updateBucket p.2 t) else p) =
      bucketExpenseSum m +
        (if (lookupA m k).isSome then (if t.type == "income" then 0 else t.amount) else 0) := by
  induction m with
  | nil => simp [bucketExpenseSum, lookupA]
  | cons p rest ih =>
      have hndr : (keysOf rest).Nodup := (List.nodup_cons.mp hnd).2
      by_cases hp : p.1 = k
      · have hrest : rest.map (fun q => if q.1 == k then (q.1, updateBucket q.2 t) else q) = rest := by
          have hnotin : p.1 ∉ keysOf rest := (List.nodup_cons.mp hnd).1
          have : ∀ q ∈ rest, (if q.1 == k then (q.1, updateBucket q.2 t) else q) = q := by
            intro q hq
            have hqk : ¬(q.1 = k) := by
              intro hqk
              apply hnotin
              rw [hp, ← hqk]
              exact List.mem_map_of_mem Prod.fst hq
            simp [hqk]
          calc rest.map (fun q => if q.1 == k then (q.1, updateBucket q.2 t) else q)
              = rest.map id := List.map_congr_left (by simpa using this)
            _ = rest := List.map_id rest
        have hsome : (lookupA (p :: rest) k).isSome = true := by
          unfold lookupA
          rw [List.find?_cons_of_pos _ (by simp [hp])]
          rfl
        rw [List.map_cons, hrest, hsome]
        simp only [hp, beq_self_eq_true, if_true, if_pos]
        rw [bucketExpenseSum_cons, bucketExpenseSum_cons, updateBucket_expenses]
        ring
      · have hlk : lookupA (p :: rest) k = lookupA rest k := by
          unfold lookupA
          rw [List.find?_cons_of_neg _ (by simp [hp])]
        rw [List.map_cons, hlk]
        have hhead : (if p.1 == k then (p.1, updateBucket p.2 t) else p) = p :=
          if_neg (by simp [hp])
        rw [hhead, bucketExpenseSum_cons, bucketExpenseSum_cons, ih hndr]
        ring

theorem bucketIncomeSum_insertTxn (m : List (String × Bucket)) (t : Transaction)
    (hnd : (keysOf m).Nodup) :
    bucketIncomeSum (insertTxn m t) =
      bucketIncomeSum m + (if t.type == "income" then t.amount else 0) := by
  unfold insertTxn
  by_cases h : hasKey m (monthYear t) = true
  · rw [if_pos h, bucketIncomeSum_map_update m (monthYear t) t hnd]
    have : (lookupA m (monthYear t)).isSome = true := (hasKeyA_iff m _).mp h
    rw [this]
    simp
  · rw [if_neg h]
    unfold bucketIncomeSum
    rw [List.map_append, List.sum_append]
    simp [bucketIncomeSum, updateBucket_income, freshBucket]

theorem bucketExpenseSum_insertTxn (m : List (String × Bucket)) (t : Transaction)
    (hnd : (keysOf m).Nodup) :
    bucketExpenseSum (insertTxn m t) =
      bucketExpenseSum m + (if t.type == "income" then 0 else t.amount) := by
  unfold insertTxn
  by_cases h : hasKey m (monthYear t) = true
  · rw [if_pos h, bucketExpenseSum_map_update m (monthYear t) t hnd]
    have : (lookupA m (monthYear t)).isSome = true := (hasKeyA_iff m _).mp h
    rw [this]
    simp
  · rw [if_neg h]
    unfold bucketExpenseSum
    rw [List.map_append, List.sum_append]
    simp [bucketExpenseSum, updateBucket_expenses, freshBucket]

theorem bucketIncomeSum_calculateMonthlyData (ts : List Transaction) :
    bucketIncomeSum (calculateMonthlyData ts) = incomeTotal ts := by
  unfold calculateMonthlyData
  have hgen : ∀ (l : List Transaction) (m : List (String × Bucket)),
      (keysOf m).Nodup →
      bucketIncomeSum (l.foldl insertTxn m) = bucketIncomeSum m + incomeTotal l := by
    intro l
    induction l with
    | nil => intro m _; simp [incomeTotal_nil]
    | cons t rest ih =>
        intro m hnd
        rw [List.foldl_cons, ih _ (keysOf_insertTxn_nodup m t hnd),
          bucketIncomeSum_insertTxn m t hnd, incomeTotal_cons]
        ring
  have := hgen ts [] (by simp [keysOf])
  simpa [bucketIncomeSum] using this

theorem bucketExpenseSum_calculateMonthlyData (ts : List Transaction) :
    bucketExpenseSum (calculateMonthlyData ts) = expenseTotal ts := by
  unfold calculateMonthlyData
  have hgen : ∀ (l : List Transaction) (m : List (String × Bucket)),
      (keysOf m).Nodup →
      bucketExpenseSum (l.foldl insertTxn m) = bucketExpenseSum m + expenseTotal l := by
    intro l
    induction l with
    | nil => intro m _; simp [expenseTotal_nil]
    | cons t rest ih =>
        intro m hnd
        rw [List.foldl_cons, ih _ (keysOf_insertTxn_nodup m t hnd),
          bucketExpenseSum_insertTxn m t hnd, expenseTotal_cons]
        ring
  have := hgen ts [] (by simp [keysOf])
  simpa [bucketExpenseSum] using this

theorem balance_inv_calculateMonthlyData (ts : List Transaction) :
    ∀ p ∈ calculateMonthlyData ts, p.2.balance = p.2.income - p.2.expenses := by
  unfold calculateMonthlyData
  have hstep : ∀ (m : List (String × Bucket)) (t : Transaction),
      (∀ p ∈ m, p.2.balance = p.2.income - p.2.expenses) →
      ∀ p ∈ insertTxn m t, p.2.balance = p.2.income - p.2.expenses := by
    intro m t h p hp
    unfold insertTxn at hp
    by_cases hk : hasKey m (monthYear t) = true
    · rw [if_pos hk] at hp
      obtain ⟨q, hq, hpq⟩ := List.mem_map.mp hp
      by_cases hqk : q.1 = monthYear t
      · rw [if_pos (by simp [hqk])] at hpq
        rw [← hpq]
        exact updateBucket_balance q.2 t
      · rw [if_neg (by simp [hqk])] at hpq
        rw [← hpq]
        exact h q hq
    · rw [if_neg hk] at hp
      rcases List.mem_append.mp hp with hin | hin
      · exact h p hin
      · have : p = (monthYear t, updateBucket freshBucket t) := by simpa using hin
        rw [this]
        exact updateBucket_balance freshBucket t
  have hgen : ∀ (l : List Transaction) (m : List (String × Bucket)),
      (∀ p ∈ m, p.2.balance = p.2.income - p.2.expenses) →
      ∀ p ∈ l.foldl insertTxn m, p.2.balance = p.2.income - p.2.expenses := by
    intro l
    induction l with
    | nil => intro m h; exact h
    | cons t rest ih =>
        intro m h
        rw [List.foldl_cons]
        exact ih _ (hstep m t h)
  exact hgen ts [] (by intro p hp; cases hp)

theorem bucketBalanceSum_eq (m : List (String × Bucket))
    (h : ∀ p ∈ m, p.2.balance = p.2.income - p.2.expenses) :
    bucketBalanceSum m = bucketIncomeSum m - bucketExpenseSum m := by
  induction m with
  | nil => simp [bucketBalanceSum, bucketIncomeSum, bucketExpenseSum]
  | cons p rest ih =>
      have hh := h p (List.mem_cons_self p rest)
      have hr := ih (fun q hq => h q (List.mem_cons_of_mem p hq))
      simp only [bucketBalanceSum, bucketIncomeSum, bucketExpenseSum,
        List.map_cons, List.sum_cons] at *
      rw [hh, hr]
      ring

/-! ### Characterization of `calculateAnnualData` -/

theorem annualStep_foldl_income (ts : List Transaction) :
    ∀ a : Annual, (ts.foldl annualStep a).income = a.income + incomeTotal ts := by
  induction ts with
  | nil => intro a; simp [incomeTotal_nil]
  | cons t rest ih =>
      intro a
      rw [List.foldl_cons, ih, incomeTotal_cons]
      unfold annualStep
      by_cases h : t.type == "income" <;> simp [h] <;> ring

theorem annualStep_foldl_expenses (ts : List Transaction) :
    ∀ a : Annual, (ts.foldl annualStep a).expenses = a.expenses + expenseTotal ts := by
  induction ts with
  | nil => intro a; simp [expenseTotal_nil]
  | cons t rest ih =>
      intro a
      rw [List.foldl_cons, ih, expenseTotal_cons]
      unfold annualStep
      by_cases h : t.type == "income" <;> simp [h] <;> ring

/-- The master characterization of the annual aggregation. -/
theorem calculateAnnualData_spec (ts : List Transaction) :
    calculateAnnualData ts =
      ⟨incomeTotal ts, expenseTotal ts, incomeTotal ts - expenseTotal ts⟩ := by
  unfold calculateAnnualData
  have h1 := annualStep_foldl_income ts ⟨0, 0, 0⟩
  have h2 := annualStep_foldl_expenses ts ⟨0, 0, 0⟩
  simp only at h1 h2
  cases hfold : ts.foldl annualStep ⟨0, 0, 0⟩ with
  | mk i e b =>
      rw [hfold] at h1 h2
      simp only at h1 h2
      simp [h1, h2]

/-! ### Characterization of `expensesByCategory` -/

theorem lookupA_catStep (m : List (String × ℚ)) (t : Transaction) (c : String) :
    lookupA (catStep m t) c =
      if t.type == "expense" && t.category == c
      then some ((lookupA m c).getD 0 + t.amount)
      else lookupA m c := by
  unfold catStep
  by_cases he : (t.type == "expense") = true
  · rw [if_pos he]
    by_cases hk : m.any (fun p => p.1 == t.category) = true
    · rw [if_pos hk, lookupA_map_update m t.category c (fun q => q + t.amount)]
      by_cases hc : c = t.category
      · have hsome : (lookupA m c).isSome = true := by
          rw [hc]
          exact (hasKeyA_iff m _).mp hk
        have hcond : (t.type == "expense" && t.category == c) = true := by
          simp [he, hc]
        rw [if_pos hc, if_pos hcond]
        cases hl : lookupA m c with
        | none => rw [hl] at hsome; cases hsome
        | some v => rfl
      · rw [if_neg hc, if_neg (by simp [he]; exact fun h => hc h.symm)]
    · rw [if_neg hk, lookupA_append]
      have hnone : lookupA m t.category = none := lookupA_not_found m _ hk
      by_cases hc : c = t.category
      · have hc0 : lookupA m c = none := by rw [hc]; exact hnone
        have hone : lookupA [(t.category, t.amount)] c = some t.amount := by
          unfold lookupA
          rw [List.find?_cons_of_pos _ (by simp [hc])]
          rfl
        rw [hc0, hone, if_pos (by simp [he, hc])]
        simp
      · have hone : lookupA [(t.category, t.amount)] c = none := by
          unfold lookupA
          rw [List.find?_cons_of_neg _ (by simp; exact fun h => hc h.symm)]
          rfl
        rw [hone, if_neg (by simp [he]; exact fun h => hc h.symm)]
        cases lookupA m c <;> rfl
  · rw [if_neg he, if_neg (by simp [he])]

theorem lookupA_foldl_catStep (ts : List Transaction) :
    ∀ (m : List (String × ℚ)) (c : String),
      lookupA (ts.foldl catStep m) c =
        (ts.filter fun t => t.type == "expense" && t.category == c).foldl
          (fun oq t => some (oq.getD 0 + t.amount)) (lookupA m c) := by
  induction ts with
  | nil => intro m c; rfl
  | cons t rest ih =>
      intro m c
      rw [List.foldl_cons, ih]
      by_cases h : (t.type == "expense" && t.category == c) = true
      · rw [List.filter_cons_of_pos
            (p := fun x : Transaction => x.type == "expense" && x.category == c) h,
          List.foldl_cons, lookupA_catStep, if_pos h]
      · rw [List.filter_cons_of_neg
            (p := fun x : Transaction => x.type == "expense" && x.category == c) h,
          lookupA_catStep, if_neg h]

theorem optFold_amount (l : List Transaction) :
    ∀ oq : Option ℚ,
      l.foldl (fun oq t => some (oq.getD 0 + t.amount)) oq =
        if l.isEmpty then oq
        else some (oq.getD 0 + (l.map Transaction.amount).sum) := by
  induction l with
  | nil => intro oq; rfl
  | cons t rest ih =>
      intro oq
      rw [List.foldl_cons, ih]
      cases rest with
      | nil => simp
      | cons u us =>
          simp [add_assoc]

/-- The master characterization of the category totals: the entry for a
category label exists exactly when some expense-typed transaction carries
that label, and then its value is the sum of the amounts of those
transactions. -/
theorem lookup_categoriesOf (ts : List Transaction) (c : String) :
    lookupA (categoriesOf ts) c =
      if (ts.filter fun t => t.type == "expense" && t.category == c).isEmpty
      then none
      else some (((ts.filter fun t => t.type == "expense" && t.category == c).map
        Transaction.amount).sum) := by
  unfold categoriesOf
  rw [lookupA_foldl_catStep, lookupA_nil, optFold_amount]
  by_cases h : (ts.filter fun t => t.type == "expense" && t.category == c).isEmpty
  · rw [if_pos h, if_pos h]
  · rw [if_neg h, if_neg h]
    simp

/-- Projection of the category object through the `{ name, value }`
mapping: looking a label up among the chart data is looking it up in the
object. -/
theorem find_expensesByCategory (ts : List Transaction) (c : String) :
    ((expensesByCategory ts).find? (fun nv => nv.name == c)).map NamedValue.value =
      lookupA (categoriesOf ts) c := by
  unfold expensesByCategory lookupA
  rw [List.find?_map]
  have hcomp : ((fun nv : NamedValue => nv.name == c) ∘
      fun p : String × ℚ => (⟨p.1, p.2⟩ : NamedValue)) = fun p => p.1 == c := rfl
  rw [hcomp]
  cases categoriesOf ts |>.find? (fun p => p.1 == c) <;> rfl

theorem incomeTotal_perm {l1 l2 : List Transaction} (h : l1.Perm l2) :
    incomeTotal l1 = incomeTotal l2 :=
  List.Perm.sum_eq ((h.filter _).map _)

theorem expenseTotal_perm {l1 l2 : List Transaction} (h : l1.Perm l2) :
    expenseTotal l1 = expenseTotal l2 :=
  List.Perm.sum_eq ((h.filter _).map _)

/-! ### The claims about the aggregation engine -/

/-- C5: the empty transaction set yields all aggregates at zero: zero
annual totals, no monthly buckets, and an empty category collection. -/
theorem empty_set_all_aggregates_zero :
    calculateAnnualData [] = ⟨0, 0, 0⟩
    ∧ calculateMonthlyData [] = []
    ∧ expensesByCategory [] = []
    ∧ monthlyChartData [] = [] := by
  refine ⟨?_, rfl, rfl, ?_⟩
  · rw [calculateAnnualData_spec]
    norm_num [incomeTotal_nil, expenseTotal_nil]
  · simp [monthlyChartData, calculateMonthlyData]

/-- C1: for enum-typed transaction sets, the annual balance is the income
total minus the expense total, it equals the sum of the balances of all
monthly buckets, and the monthly income buckets sum to the annual income
(partition completeness). -/
theorem annual_balance_and_partition (ts : List Transaction)
    (htype : ∀ t ∈ ts, t.type = "income" ∨ t.type = "expense") :
    (calculateAnnualData ts).balance = incomeTotal ts - expenseOnlyTotal ts
    ∧ (calculateAnnualData ts).balance = bucketBalanceSum (calculateMonthlyData ts)
    ∧ bucketIncomeSum (calculateMonthlyData ts) = (calculateAnnualData ts).income := by
  have hexp : expenseTotal ts = expenseOnlyTotal ts := by
    have hfe : (ts.filter fun t => !(t.type == "income")) =
        ts.filter fun t => t.type == "expense" := by
      apply List.filter_congr
      intro t ht
      rcases htype t ht with h | h <;> simp [h]
    unfold expenseTotal expenseOnlyTotal
    rw [hfe]
  refine ⟨?_, ?_, ?_⟩
  · rw [calculateAnnualData_spec, ← hexp]
  · rw [calculateAnnualData_spec,
      bucketBalanceSum_eq _ (balance_inv_calculateMonthlyData ts),
      bucketIncomeSum_calculateMonthlyData, bucketExpenseSum_calculateMonthlyData]
  · rw [bucketIncomeSum_calculateMonthlyData, calculateAnnualData_spec]

/-- Closed instance of C1 on the spec's worked example. -/
theorem annual_balance_and_partition_witness :
    (∀ t ∈ [tx1, tx2, tx3], t.type = "income" ∨ t.type = "expense")
    ∧ ((calculateAnnualData [tx1, tx2, tx3]).balance =
        incomeTotal [tx1, tx2, tx3] - expenseOnlyTotal [tx1, tx2, tx3]
      ∧ (calculateAnnualData [tx1, tx2, tx3]).balance =
          bucketBalanceSum (calculateMonthlyData [tx1, tx2, tx3])
      ∧ bucketIncomeSum (calculateMonthlyData [tx1, tx2, tx3]) =
          (calculateAnnualData [tx1, tx2, tx3]).income) :=
  ⟨by decide, annual_balance_and_partition [tx1, tx2, tx3] (by decide)⟩

/-- C2: the category totals sum exactly the amounts of the expense-typed
transactions carrying the label, and appending an income-typed
transaction leaves the whole category collection (hence that category's
total) unchanged. -/
theorem category_totals_expense_only (ts : List Transaction) (c : String)
    (t : Transaction) :
    ((expensesByCategory ts).find? (fun nv => nv.name == c)).map NamedValue.value =
      (if (ts.filter fun x => x.type == "expense" && x.category == c).isEmpty
       then none
       else some (((ts.filter fun x => x.type == "expense" && x.category == c).map
         Transaction.amount).sum))
    ∧ (t.type = "income" → expensesByCategory (ts ++ [t]) = expensesByCategory ts) := by
  constructor
  · rw [find_expensesByCategory, lookup_categoriesOf]
  · intro h
    unfold expensesByCategory categoriesOf
    rw [List.foldl_append, List.foldl_cons, List.foldl_nil]
    congr 1
    unfold catStep
    rw [if_neg (by simp [h])]

/-- Closed instance of C2: an income transaction labeled `"food"` does
not change the `"food"` total. -/
theorem category_totals_expense_only_witness :
    (((expensesByCategory [tx1, tx2, tx3]).find? (fun nv => nv.name == "food")).map
        NamedValue.value =
      (if ([tx1, tx2, tx3].filter fun x =>
            x.type == "expense" && x.category == "food").isEmpty
       then none
       else some ((([tx1, tx2, tx3].filter fun x =>
            x.type == "expense" && x.category == "food").map
         Transaction.amount).sum)))
    ∧ (Transaction.type ⟨"5", "bonus", 70, "income", "food", "2024-02-09"⟩ = "income"
        ∧ expensesByCategory ([tx1, tx2, tx3] ++
            [⟨"5", "bonus", 70, "income", "food", "2024-02-09"⟩]) =
          expensesByCategory [tx1, tx2, tx3]) :=
  ⟨(category_totals_expense_only [tx1, tx2, tx3] "food"
      ⟨"5", "bonus", 70, "income", "food", "2024-02-09"⟩).1,
   rfl,
   (category_totals_expense_only [tx1, tx2, tx3] "food"
      ⟨"5", "bonus", 70, "income", "food", "2024-02-09"⟩).2 rfl⟩

/-- C3: the monthly aggregation partitions the list by the 7-character
date prefix: keys are unique, a bucket exists exactly when some
transaction has that prefix, the bucket holds exactly the transactions
with that prefix, and its numeric fields are the totals over them. -/
theorem monthly_partition (ts : List Transaction) (k : String) :
    (keysOf (calculateMonthlyData ts)).Nodup
    ∧ ((lookupA (calculateMonthlyData ts) k).isSome = true ↔
        ∃ t ∈ ts, monthYear t = k)
    ∧ (∀ b, lookupA (calculateMonthlyData ts) k = some b →
        b.transactions = ts.filter (fun t => monthYear t == k)
        ∧ (∀ t, t ∈ b.transactions ↔ t ∈ ts ∧ monthYear t = k)
        ∧ b.income = incomeTotal b.transactions
        ∧ b.expenses = expenseTotal b.transactions
        ∧ b.balance = b.income - b.expenses) := by
  refine ⟨keysOf_calculateMonthlyData_nodup ts, ?_, ?_⟩
  · rw [lookup_calculateMonthlyData]
    by_cases h : (ts.filter fun t => monthYear t == k).isEmpty
    · rw [if_pos h]
      simp only [Option.isSome_none, Bool.false_eq_true, false_iff]
      rintro ⟨t, ht, hmk⟩
      have hmem : t ∈ ts.filter (fun t => monthYear t == k) :=
        List.mem_filter.mpr ⟨ht, by simp [hmk]⟩
      rw [List.isEmpty_iff.mp h] at hmem
      cases hmem
    · rw [if_neg h]
      simp only [Option.isSome_some, true_iff]
      have hne : ts.filter (fun t => monthYear t == k) ≠ [] := by
        intro hnil
        rw [hnil] at h
        exact h rfl
      obtain ⟨t, ht⟩ := List.exists_mem_of_ne_nil _ hne
      have hm := List.mem_filter.mp ht
      exact ⟨t, hm.1, by simpa using hm.2⟩
  · intro b hb
    rw [lookup_calculateMonthlyData] at hb
    by_cases h : (ts.filter fun t => monthYear t == k).isEmpty
    · rw [if_pos h] at hb
      cases hb
    · rw [if_neg h] at hb
      injection hb with hb
      subst hb
      refine ⟨rfl, ?_, rfl, rfl, rfl⟩
      intro t
      unfold bucketFor
      simp only [List.mem_filter, beq_iff_eq]

/-- Closed instance of C3 on the spec's worked example at key
`"2024-01"`. -/
theorem monthly_partition_witness :
    (keysOf (calculateMonthlyData [tx1, tx2, tx3])).Nodup
    ∧ ((lookupA (calculateMonthlyData [tx1, tx2, tx3]) "2024-01").isSome = true ↔
        ∃ t ∈ [tx1, tx2, tx3], monthYear t = "2024-01")
    ∧ (bucketFor [tx1, tx2, tx3] "2024-01").transactions =
        [tx1, tx2, tx3].filter (fun t => monthYear t == "2024-01") :=
  ⟨(monthly_partition [tx1, tx2, tx3] "2024-01").1,
   (monthly_partition [tx1, tx2, tx3] "2024-01").2.1,
   ((monthly_partition [tx1, tx2, tx3] "2024-01").2.2 (bucketFor [tx1, tx2, tx3] "2024-01")
     (by rw [lookup_calculateMonthlyData, if_neg (by decide)])).1⟩

/-- C4: the monthly aggregation of a permuted transaction list carries
the same income, expenses and balance at every year-month key, and the
annual aggregation is identical (iteration order does not affect the
sums). -/
theorem aggregation_order_independent (ts1 ts2 : List Transaction)
    (h : ts1.Perm ts2) :
    (∀ k, (lookupA (calculateMonthlyData ts1) k).map bucketNums =
          (lookupA (calculateMonthlyData ts2) k).map bucketNums)
    ∧ calculateAnnualData ts1 = calculateAnnualData ts2 := by
  constructor
  · intro k
    rw [lookup_calculateMonthlyData, lookup_calculateMonthlyData]
    have hpf : (ts1.filter fun t => monthYear t == k).Perm
        (ts2.filter fun t => monthYear t == k) := h.filter _
    have hie : (ts1.filter fun t => monthYear t == k).isEmpty =
        (ts2.filter fun t => monthYear t == k).isEmpty := by
      rw [Bool.eq_iff_iff]
      simp only [List.isEmpty_iff_length_eq_zero, hpf.length_eq]
    by_cases he : (ts1.filter fun t => monthYear t == k).isEmpty = true
    · rw [if_pos he, if_pos (hie ▸ he)]
    · rw [if_neg he, if_neg (by rw [← hie]; exact he)]
      have hnums : bucketNums (bucketFor ts1 k) = bucketNums (bucketFor ts2 k) := by
        unfold bucketNums bucketFor
        rw [incomeTotal_perm hpf, expenseTotal_perm hpf]
      show some (bucketNums (bucketFor ts1 k)) = some (bucketNums (bucketFor ts2 k))
      rw [hnums]
  · rw [calculateAnnualData_spec, calculateAnnualData_spec,
      incomeTotal_perm h, expenseTotal_perm h]

/-- Closed instance of C4 on a reordering of the spec's worked
example. -/
theorem aggregation_order_independent_witness :
    [tx1, tx2, tx3].Perm [tx3, tx1, tx2]
    ∧ ((∀ k, (lookupA (calculateMonthlyData [tx1, tx2, tx3]) k).map bucketNums =
          (lookupA (calculateMonthlyData [tx3, tx1, tx2]) k).map bucketNums)
      ∧ calculateAnnualData [tx1, tx2, tx3] = calculateAnnualData [tx3, tx1, tx2]) :=
  ⟨by decide, aggregation_order_independent [tx1, tx2, tx3] [tx3, tx1, tx2] (by decide)⟩

/-- C10: a transaction whose type is any string other than `"income"` is
added to the expenses of both the annual totals and its monthly bucket
(there is no branch ignoring unrecognized types), while the category
totals include it only when the type is exactly `"expense"`. -/
theorem unrecognized_type_counts_as_expense (ts : List Transaction)
    (t : Transaction) (h : t.type ≠ "income") :
    (calculateAnnualData (ts ++ [t])).expenses =
        (calculateAnnualData ts).expenses + t.amount
    ∧ (calculateAnnualData (ts ++ [t])).income = (calculateAnnualData ts).income
    ∧ ((lookupA (calculateMonthlyData (ts ++ [t])) (monthYear t)).map
          Bucket.expenses).getD 0 =
        ((lookupA (calculateMonthlyData ts) (monthYear t)).map
          Bucket.expenses).getD 0 + t.amount
    ∧ (t.type ≠ "expense" → expensesByCategory (ts ++ [t]) = expensesByCategory ts) := by
  have hte : (t.type == "income") = false := by simp [h]
  have hexpt : expenseTotal [t] = t.amount := by
    rw [expenseTotal_cons, expenseTotal_nil, hte]
    simp
  have hinct : incomeTotal [t] = 0 := by
    rw [incomeTotal_cons, incomeTotal_nil, hte]
    simp
  refine ⟨?_, ?_, ?_, ?_⟩
  · rw [calculateAnnualData_spec, calculateAnnualData_spec]
    simp only
    rw [expenseTotal_append, hexpt]
  · rw [calculateAnnualData_spec, calculateAnnualData_spec]
    simp only
    rw [incomeTotal_append, hinct]
    ring
  · rw [lookup_calculateMonthlyData, lookup_calculateMonthlyData]
    have hsingle : List.filter (fun x => monthYear x == monthYear t) [t] = [t] := by
      rw [List.filter_cons_of_pos
        (p := fun x : Transaction => monthYear x == monthYear t) (by simp)]
      rfl
    have hfilter : ((ts ++ [t]).filter fun x => monthYear x == monthYear t) =
        (ts.filter fun x => monthYear x == monthYear t) ++ [t] := by
      rw [List.filter_append, hsingle]
    have hne : ¬(((ts ++ [t]).filter fun x => monthYear x == monthYear t).isEmpty = true) := by
      rw [hfilter]
      simp
    rw [if_neg hne]
    have hexpb : (bucketFor (ts ++ [t]) (monthYear t)).expenses =
        expenseTotal (ts.filter fun x => monthYear x == monthYear t) + t.amount := by
      unfold bucketFor
      rw [hfilter, expenseTotal_append, hexpt]
    show ((some (bucketFor (ts ++ [t]) (monthYear t))).map Bucket.expenses).getD 0 = _
    rw [Option.map_some', Option.getD_some, hexpb]
    by_cases he : ((ts.filter fun x => monthYear x == monthYear t).isEmpty = true)
    · rw [if_pos he]
      rw [List.isEmpty_iff.mp he, expenseTotal_nil]
      simp
    · rw [if_neg he, Option.map_some', Option.getD_some]
      rfl
  · intro h2
    unfold expensesByCategory categoriesOf
    rw [List.foldl_append, List.foldl_cons, List.foldl_nil]
    congr 1
    unfold catStep
    rw [if_neg (by simp [h2])]

/-- Closed instance of C10 with the off-enum type `"banana"`. -/
theorem unrecognized_type_counts_as_expense_witness :
    Transaction.type txOdd ≠ "income"
    ∧ ((calculateAnnualData ([tx1, tx2] ++ [txOdd])).expenses =
          (calculateAnnualData [tx1, tx2]).expenses + Transaction.amount txOdd
      ∧ (calculateAnnualData ([tx1, tx2] ++ [txOdd])).income =
          (calculateAnnualData [tx1, tx2]).income
      ∧ ((lookupA (calculateMonthlyData ([tx1, tx2] ++ [txOdd])) (monthYear txOdd)).map
            Bucket.expenses).getD 0 =
          ((lookupA (calculateMonthlyData [tx1, tx2]) (monthYear txOdd)).map
            Bucket.expenses).getD 0 + Transaction.amount txOdd
      ∧ (Transaction.type txOdd ≠ "expense" →
          expensesByCategory ([tx1, tx2] ++ [txOdd]) = expensesByCategory [tx1, tx2])) :=
  ⟨by decide, unrecognized_type_counts_as_expense [tx1, tx2] txOdd (by decide)⟩

/-! ### The claims about the transaction service -/

theorem storeIds_eq_keysOf (s : List (String × Transaction)) :
    storeIds s = keysOf s := rfl

theorem any_id_iff_mem (s : List (String × Transaction)) (id : String) :
    (s.any fun p => p.1 == id) = true ↔ id ∈ storeIds s := by
  rw [hasKeyA_iff, storeIds_eq_keysOf, mem_keysOf_iff]

/-- C8: replacing by an id absent from the store returns `null` and
leaves the store untouched; replacing by a present id returns the updated
record. -/
theorem put_replace_by_id (s : List (String × Transaction)) (id : String)
    (body : Transaction) :
    (id ∉ storeIds s → putHandler s id body = (none, s))
    ∧ (id ∈ storeIds s →
        (putHandler s id body).1 = some { body with _id := id }) := by
  constructor
  · intro h
    unfold putHandler findByIdAndUpdate
    rw [if_neg (fun hc => h ((any_id_iff_mem s id).mp hc))]
  · intro h
    unfold putHandler findByIdAndUpdate
    rw [if_pos ((any_id_iff_mem s id).mpr h)]

/-- Closed instance of C8: a `PUT` against an id absent from a one-record
store, and against the present id. -/
theorem put_replace_by_id_witness :
    ("9" ∉ storeIds [("1", tx1)]
      ∧ putHandler [("1", tx1)] "9" tx2 = (none, [("1", tx1)]))
    ∧ ("1" ∈ storeIds [("1", tx1)]
      ∧ (putHandler [("1", tx1)] "1" tx2).1 = some { tx2 with _id := "1" }) :=
  ⟨⟨by decide,
    (put_replace_by_id [("1", tx1)] "9" tx2).1 (by decide)⟩,
   ⟨by decide,
    (put_replace_by_id [("1", tx1)] "1" tx2).2 (by decide)⟩⟩

/-- C9: deleting an absent id still answers the fixed confirmation
message and leaves the store unchanged, and (ids being unique in any
store) deleting the same id twice has the same effect on the store as
deleting it once. -/
theorem delete_by_id_idempotent (s : List (String × Transaction)) (id : String) :
    (deleteHandler s id).1 = "Transaction deleted successfully"
    ∧ (id ∉ storeIds s → (deleteHandler s id).2 = s)
    ∧ ((storeIds s).Nodup →
        (deleteHandler (deleteHandler s id).2 id).2 = (deleteHandler s id).2) := by
  refine ⟨rfl, ?_, ?_⟩
  · intro h
    unfold deleteHandler findByIdAndDelete
    simp only
    apply List.eraseP_of_forall_not
    intro p hp
    simp only [beq_iff_eq]
    intro hpe
    exact h (hpe ▸ List.mem_map_of_mem Prod.fst hp)
  · intro hnd
    unfold deleteHandler findByIdAndDelete
    simp only
    by_cases hmem : ∃ p ∈ s, (p.1 == id) = true
    · obtain ⟨p, hp, hpe⟩ := hmem
      obtain ⟨a, l1, l2, hl1, hpa, hsplit, herase⟩ :=
        List.exists_of_eraseP (p := fun x : String × Transaction => x.1 == id) hp hpe
      rw [herase]
      apply List.eraseP_of_forall_not
      intro b hb
      rcases List.mem_append.mp hb with hb1 | hb2
      · exact hl1 b hb1
      · have ha : a.1 = id := by simpa using hpa
        have hnd2 : (storeIds (l1 ++ a :: l2)).Nodup := by
          rw [← hsplit]
          exact hnd
        have hsplit2 : storeIds (l1 ++ a :: l2) =
            storeIds l1 ++ a.1 :: storeIds l2 := by
          simp [storeIds]
        rw [hsplit2] at hnd2
        have hnotin : a.1 ∉ storeIds l2 :=
          (List.nodup_cons.mp (List.Nodup.of_append_right hnd2)).1
        simp only [beq_iff_eq]
        intro hbe
        apply hnotin
        rw [ha, ← hbe]
        exact List.mem_map_of_mem Prod.fst hb2
    · have hall : ∀ p ∈ s, ¬((p.1 == id) = true) := by
        intro p hp hpe
        exact hmem ⟨p, hp, hpe⟩
      rw [List.eraseP_of_forall_not hall, List.eraseP_of_forall_not hall]

/-- Closed instance of C9: deleting id `"9"` from a store that lacks it,
and deleting id `"1"` twice. -/
theorem delete_by_id_idempotent_witness :
    ((deleteHandler [("1", tx1), ("2", tx2)] "9").1 =
        "Transaction deleted successfully"
      ∧ ("9" ∉ storeIds [("1", tx1), ("2", tx2)]
        ∧ (deleteHandler [("1", tx1), ("2", tx2)] "9").2 = [("1", tx1), ("2", tx2)]))
    ∧ ((storeIds [("1", tx1), ("2", tx2)]).Nodup
      ∧ (deleteHandler (deleteHandler [("1", tx1), ("2", tx2)] "1").2 "1").2 =
          (deleteHandler [("1", tx1), ("2", tx2)] "1").2) :=
  ⟨⟨(delete_by_id_idempotent [("1", tx1), ("2", tx2)] "9").1,
    by decide,
    (delete_by_id_idempotent [("1", tx1), ("2", tx2)] "9").2.1 (by decide)⟩,
   by decide,
   (delete_by_id_idempotent [("1", tx1), ("2", tx2)] "1").2.2 (by decide)⟩

/-- C7 fails on the code: a create request whose `type` is `"banana"` —
outside the income/expense enum — is not rejected; the handler stores the
record verbatim and answers with the created document. -/
theorem post_stores_unvalidated_type :
    (postHandler [] "id1" ⟨"desc", JsonValue.num 5, "banana", "misc", "2024-01-05"⟩).1 =
      PostResponse.created ("id1", ⟨"id1", "desc", 5, "banana", "misc", "2024-01-05"⟩)
    ∧ (postHandler [] "id1" ⟨"desc", JsonValue.num 5, "banana", "misc", "2024-01-05"⟩).2 =
      [("id1", ⟨"id1", "desc", 5, "banana", "misc", "2024-01-05"⟩)] :=
  ⟨rfl, rfl⟩

/-- C7 as amended: the schema performs no enum validation, so any body
whose amount casts numerically is stored verbatim (whatever its type
string); a body whose amount fails the numeric cast makes `save()` throw,
and the uncaught exception surfaces as a server error — not a client
error — with nothing stored. -/
theorem post_validation_amended (s : List (String × Transaction))
    (freshId : String) (body : CreateBody) :
    (castAmount body.amount = none →
      postHandler s freshId body = (PostResponse.serverError, s))
    ∧ (∀ q, castAmount body.amount = some q →
        postHandler s freshId body =
          (PostResponse.created (freshId,
            ⟨freshId, body.description, q, body.type, body.category, body.date⟩),
           s ++ [(freshId,
            ⟨freshId, body.description, q, body.type, body.category, body.date⟩)])) := by
  constructor
  · intro h
    unfold postHandler
    rw [h]
  · intro q h
    unfold postHandler
    rw [h]

/-- Closed instance of the amended C7: a non-numeric amount is a server
error with nothing stored; a numeric amount with an off-enum type is
stored verbatim. -/
theorem post_validation_amended_witness :
    (castAmount (JsonValue.str "abc") = none
      ∧ postHandler [] "id1" ⟨"d", JsonValue.str "abc", "expense", "c", "2024-01-05"⟩ =
          (PostResponse.serverError, []))
    ∧ (castAmount (JsonValue.num 5) = some 5
      ∧ postHandler [] "id1" ⟨"d", JsonValue.num 5, "banana", "c", "2024-01-05"⟩ =
          (PostResponse.created ("id1", ⟨"id1", "d", 5, "banana", "c", "2024-01-05"⟩),
           [("id1", ⟨"id1", "d", 5, "banana", "c", "2024-01-05"⟩)])) :=
  ⟨⟨rfl,
    (post_validation_amended [] "id1"
      ⟨"d", JsonValue.str "abc", "expense", "c", "2024-01-05"⟩).1 rfl⟩,
   ⟨rfl,
    (post_validation_amended [] "id1"
      ⟨"d", JsonValue.num 5, "banana", "c", "2024-01-05"⟩).2 5 rfl⟩⟩

/-! ### The chart series: month keys, labels, and the sort -/

theorem char_isDigit_bounds (c : Char) (h : c.isDigit = true) :
    48 ≤ c.toNat ∧ c.toNat ≤ 57 := by
  simp [Char.isDigit] at h
  exact h

theorem char_eq_of_digitVal_eq (c d : Char) (hc : c.isDigit = true)
    (hd : d.isDigit = true) (h : digitVal c = digitVal d) : c = d := by
  have hcb := char_isDigit_bounds c hc
  have hdb := char_isDigit_bounds d hd
  have ht : c.toNat = d.toNat := by
    unfold digitVal at h
    omega
  apply Char.ext
  unfold Char.toNat at ht
  exact UInt32.toNat.inj ht

theorem digitVal_le_nine (c : Char) (h : c.isDigit = true) : digitVal c ≤ 9 := by
  have := char_isDigit_bounds c h
  unfold digitVal
  omega

theorem validMonthKey_shape (s : String) (h : validMonthKey s = true) :
    ∃ a b c d e f, s.toList = [a, b, c, d, '-', e, f]
      ∧ a.isDigit = true ∧ b.isDigit = true ∧ c.isDigit = true ∧ d.isDigit = true
      ∧ e.isDigit = true ∧ f.isDigit = true
      ∧ 1 ≤ 10 * digitVal e + digitVal f ∧ 10 * digitVal e + digitVal f ≤ 12 := by
  unfold validMonthKey at h
  split at h
  next a b c d dash e f heq =>
    simp only [Bool.and_eq_true, beq_iff_eq, decide_eq_true_eq] at h
    obtain ⟨⟨⟨⟨⟨⟨⟨⟨ha, hb⟩, hc⟩, hd⟩, hdash⟩, he⟩, hf⟩, hm1⟩, hm2⟩ := h
    subst hdash
    exact ⟨a, b, c, d, e, f, heq, ha, hb, hc, hd, he, hf, hm1, hm2⟩
  next =>
    cases h

theorem monthTime_eq (s : String) (a b c d g e f : Char)
    (h : s.toList = [a, b, c, d, g, e, f]) :
    monthTime s = (1000 * digitVal a + 100 * digitVal b + 10 * digitVal c +
      digitVal d) * 12 + (10 * digitVal e + digitVal f) := by
  unfold monthTime
  rw [h]

theorem monthTime_inj (s1 s2 : String) (h1 : validMonthKey s1 = true)
    (h2 : validMonthKey s2 = true) (heq : monthTime s1 = monthTime s2) :
    s1 = s2 := by
  obtain ⟨a1, b1, c1, d1, e1, f1, hl1, ha1, hb1, hc1, hd1, he1, hf1, hm11, hm12⟩ :=
    validMonthKey_shape s1 h1
  obtain ⟨a2, b2, c2, d2, e2, f2, hl2, ha2, hb2, hc2, hd2, he2, hf2, hm21, hm22⟩ :=
    validMonthKey_shape s2 h2
  rw [monthTime_eq s1 a1 b1 c1 d1 '-' e1 f1 hl1,
    monthTime_eq s2 a2 b2 c2 d2 '-' e2 f2 hl2] at heq
  have hA1 := digitVal_le_nine a1 ha1
  have hB1 := digitVal_le_nine b1 hb1
  have hC1 := digitVal_le_nine c1 hc1
  have hD1 := digitVal_le_nine d1 hd1
  have hE1 := digitVal_le_nine e1 he1
  have hF1 := digitVal_le_nine f1 hf1
  have hA2 := digitVal_le_nine a2 ha2
  have hB2 := digitVal_le_nine b2 hb2
  have hC2 := digitVal_le_nine c2 hc2
  have hD2 := digitVal_le_nine d2 hd2
  have hE2 := digitVal_le_nine e2 he2
  have hF2 := digitVal_le_nine f2 hf2
  have hall : digitVal a1 = digitVal a2 ∧ digitVal b1 = digitVal b2
      ∧ digitVal c1 = digitVal c2 ∧ digitVal d1 = digitVal d2
      ∧ digitVal e1 = digitVal e2 ∧ digitVal f1 = digitVal f2 := by
    omega
  obtain ⟨hA, hB, hC, hD, hE, hF⟩ := hall
  have hchars : s1.toList = s2.toList := by
    rw [hl1, hl2, char_eq_of_digitVal_eq a1 a2 ha1 ha2 hA,
      char_eq_of_digitVal_eq b1 b2 hb1 hb2 hB,
      char_eq_of_digitVal_eq c1 c2 hc1 hc2 hC,
      char_eq_of_digitVal_eq d1 d2 hd1 hd2 hD,
      char_eq_of_digitVal_eq e1 e2 he1 he2 hE,
      char_eq_of_digitVal_eq f1 f2 hf1 hf2 hF]
  exact String.ext hchars

theorem parseNameTime_concat (m1 m2 m3 a b c d : Char) (mval : ℕ)
    (ha : a.isDigit = true) (hb : b.isDigit = true) (hc : c.isDigit = true)
    (hd : d.isDigit = true)
    (hmon : monthOfShortName (String.mk [m1, m2, m3]) = some mval) :
    parseNameTime (String.mk [m1, m2, m3] ++ " " ++ String.mk [a, b, c, d]) =
      some ((1000 * digitVal a + 100 * digitVal b + 10 * digitVal c +
        digitVal d) * 12 + mval) := by
  have hdata : (String.mk [m1, m2, m3] ++ " " ++ String.mk [a, b, c, d]).toList =
      [m1, m2, m3, ' ', a, b, c, d] := by
    show (String.mk [m1, m2, m3] ++ " " ++ String.mk [a, b, c, d]).data =
      [m1, m2, m3, ' ', a, b, c, d]
    rw [String.data_append, String.data_append]
    rfl
  unfold parseNameTime
  rw [hdata]
  simp [ha, hb, hc, hd, hmon]

theorem parseNameTime_formatLocaleMonth (s : String) (h : validMonthKey s = true) :
    parseNameTime (formatLocaleMonth s) = some (monthTime s) := by
  obtain ⟨a, b, c, d, e, f, hl, ha, hb, hc, hd, he, hf, hm1, hm2⟩ :=
    validMonthKey_shape s h
  have hmk : String.mk [a, b, c, d, '-', e, f] = s := by
    apply String.ext
    show [a, b, c, d, '-', e, f] = s.data
    rw [← hl]
    rfl
  have hfmt : formatLocaleMonth s =
      monthShortName (10 * digitVal e + digitVal f) ++ " " ++
        String.mk [a, b, c, d] := by
    unfold formatLocaleMonth
    rw [hl]
    show (if validMonthKey (String.mk [a, b, c, d, '-', e, f]) then
        monthShortName (10 * digitVal e + digitVal f) ++ " " ++ String.mk [a, b, c, d]
      else "Invalid Date") = _
    rw [hmk, h]
    rfl
  rw [hfmt, monthTime_eq s a b c d '-' e f hl]
  obtain ⟨n, hn⟩ : ∃ n, 10 * digitVal e + digitVal f = n := ⟨_, rfl⟩
  rw [hn] at hm1 hm2 ⊢
  interval_cases n
  · exact parseNameTime_concat 'J' 'a' 'n' a b c d 1 ha hb hc hd (by decide)
  · exact parseNameTime_concat 'F' 'e' 'b' a b c d 2 ha hb hc hd (by decide)
  · exact parseNameTime_concat 'M' 'a' 'r' a b c d 3 ha hb hc hd (by decide)
  · exact parseNameTime_concat 'A' 'p' 'r' a b c d 4 ha hb hc hd (by decide)
  · exact parseNameTime_concat 'M' 'a' 'y' a b c d 5 ha hb hc hd (by decide)
  · exact parseNameTime_concat 'J' 'u' 'n' a b c d 6 ha hb hc hd (by decide)
  · exact parseNameTime_concat 'J' 'u' 'l' a b c d 7 ha hb hc hd (by decide)
  · exact parseNameTime_concat 'A' 'u' 'g' a b c d 8 ha hb hc hd (by decide)
  · exact parseNameTime_concat 'S' 'e' 'p' a b c d 9 ha hb hc hd (by decide)
  · exact parseNameTime_concat 'O' 'c' 't' a b c d 10 ha hb hc hd (by decide)
  · exact parseNameTime_concat 'N' 'o' 'v' a b c d 11 ha hb hc hd (by decide)
  · exact parseNameTime_concat 'D' 'e' 'c' a b c d 12 ha hb hc hd (by decide)

theorem chartLe_trans (a b c : ChartEntry) (hab : chartLe a b = true)
    (hbc : chartLe b c = true) : chartLe a c = true := by
  unfold chartLe at *
  exact decide_eq_true (le_trans (of_decide_eq_true hab) (of_decide_eq_true hbc))

theorem chartLe_total (a b : ChartEntry) : (chartLe a b || chartLe b a) = true := by
  unfold chartLe
  rcases le_total ((parseNameTime a.name).getD 0) ((parseNameTime b.name).getD 0)
    with h | h
  · rw [decide_eq_true h]
    simp
  · rw [decide_eq_true h]
    simp

theorem monthlyChartData_sorted (ts : List Transaction) :
    List.Pairwise (fun a b : ChartEntry => chartTime a ≤ chartTime b)
      (monthlyChartData ts) := by
  unfold monthlyChartData
  have hs := @List.sorted_mergeSort ChartEntry chartLe
    (fun a b c => chartLe_trans a b c) (fun a b => chartLe_total a b)
    ((calculateMonthlyData ts).map toChartEntry)
  refine hs.imp ?_
  intro a b hab
  unfold chartLe at hab
  exact of_decide_eq_true hab

theorem filter_isEmpty_perm {l1 l2 : List Transaction} (p : Transaction → Bool)
    (h : l1.Perm l2) : (l1.filter p).isEmpty = (l2.filter p).isEmpty := by
  rw [Bool.eq_iff_iff]
  simp only [List.isEmpty_iff_length_eq_zero, (h.filter p).length_eq]

theorem chartEntry_lookup_eq (ts1 ts2 : List Transaction) (h : ts1.Perm ts2)
    (k : String) :
    toChartEntry (k, (lookupA (calculateMonthlyData ts1) k).getD freshBucket) =
      toChartEntry (k, (lookupA (calculateMonthlyData ts2) k).getD freshBucket) := by
  rw [lookup_calculateMonthlyData, lookup_calculateMonthlyData]
  have hpf := h.filter (fun t => monthYear t == k)
  have hie := filter_isEmpty_perm (fun t => monthYear t == k) h
  by_cases he : (ts1.filter fun t => monthYear t == k).isEmpty = true
  · rw [if_pos he, if_pos (hie ▸ he)]
  · rw [if_neg he, if_neg (by rw [← hie]; exact he)]
    have hinc := incomeTotal_perm hpf
    have hexp := expenseTotal_perm hpf
    unfold toChartEntry bucketFor
    dsimp only
    rw [hinc, hexp]
    rfl

theorem keys_perm_of_perm (ts1 ts2 : List Transaction) (h : ts1.Perm ts2) :
    (keysOf (calculateMonthlyData ts1)).Perm (keysOf (calculateMonthlyData ts2)) := by
  apply (List.perm_ext_iff_of_nodup (keysOf_calculateMonthlyData_nodup ts1)
    (keysOf_calculateMonthlyData_nodup ts2)).mpr
  intro k
  rw [mem_keysOf_iff, mem_keysOf_iff, lookup_calculateMonthlyData,
    lookup_calculateMonthlyData, filter_isEmpty_perm (fun t => monthYear t == k) h]
  by_cases he : (ts2.filter fun t => monthYear t == k).isEmpty = true
  · rw [if_pos he, if_pos he]
  · rw [if_neg he, if_neg he]
    rfl

theorem map_eq_keys_map (m : List (String × Bucket)) (hnd : (keysOf m).Nodup)
    (g : String → Bucket → ChartEntry) :
    m.map (fun p => g p.1 p.2) =
      (keysOf m).map (fun k => g k ((lookupA m k).getD freshBucket)) := by
  induction m with
  | nil => rfl
  | cons p rest ih =>
      have hnotin : p.1 ∉ keysOf rest := (List.nodup_cons.mp hnd).1
      have hndr : (keysOf rest).Nodup := (List.nodup_cons.mp hnd).2
      have hhead : lookupA (p :: rest) p.1 = some p.2 := by
        unfold lookupA
        rw [List.find?_cons_of_pos _ (by simp)]
        rfl
      have htail : ∀ k ∈ keysOf rest, lookupA (p :: rest) k = lookupA rest k := by
        intro k hk
        have hkp : ¬(p.1 = k) := fun hh => hnotin (by rw [hh]; exact hk)
        unfold lookupA
        rw [List.find?_cons_of_neg _ (by simp [hkp])]
      show g p.1 p.2 :: rest.map (fun p => g p.1 p.2) =
        g p.1 ((lookupA (p :: rest) p.1).getD freshBucket) ::
          (keysOf rest).map (fun k => g k ((lookupA (p :: rest) k).getD freshBucket))
      rw [hhead]
      congr 1
      rw [ih hndr]
      apply List.map_congr_left
      intro k hk
      rw [htail k hk]

theorem entries_eq_keys_entries (ts : List Transaction) :
    (calculateMonthlyData ts).map toChartEntry =
      (keysOf (calculateMonthlyData ts)).map
        (fun k => toChartEntry (k, (lookupA (calculateMonthlyData ts) k).getD
          freshBucket)) := by
  rw [show (calculateMonthlyData ts).map toChartEntry =
      (calculateMonthlyData ts).map (fun p => toChartEntry (p.1, p.2)) from
    List.map_congr_left (fun p _ => rfl)]
  exact map_eq_keys_map _ (keysOf_calculateMonthlyData_nodup ts)
    (fun k b => toChartEntry (k, b))

theorem keys_valid (ts : List Transaction)
    (hval : ∀ t ∈ ts, validMonthKey (monthYear t) = true)
    (k : String) (hk : k ∈ keysOf (calculateMonthlyData ts)) :
    validMonthKey k = true := by
  have hsome := (mem_keysOf_iff _ _).mp hk
  rw [lookup_calculateMonthlyData] at hsome
  by_cases h : (ts.filter fun t => monthYear t == k).isEmpty = true
  · rw [if_pos h] at hsome
    cases hsome
  · have hne : ts.filter (fun t => monthYear t == k) ≠ [] := by
      intro hnil
      rw [hnil] at h
      exact h rfl
    obtain ⟨t, ht⟩ := List.exists_mem_of_ne_nil _ hne
    have hm := List.mem_filter.mp ht
    have hmk : monthYear t = k := by simpa using hm.2
    rw [← hmk]
    exact hval t hm.1

theorem chart_times_nodup (ts : List Transaction)
    (hval : ∀ t ∈ ts, validMonthKey (monthYear t) = true) :
    (((calculateMonthlyData ts).map toChartEntry).map chartTime).Nodup := by
  rw [entries_eq_keys_entries, List.map_map]
  have hcong : (keysOf (calculateMonthlyData ts)).map
      (chartTime ∘ fun k => toChartEntry (k, (lookupA (calculateMonthlyData ts) k).getD
        freshBucket)) =
      (keysOf (calculateMonthlyData ts)).map monthTime := by
    apply List.map_congr_left
    intro k hk
    have hv := keys_valid ts hval k hk
    show (parseNameTime (formatLocaleMonth k)).getD 0 = monthTime k
    rw [parseNameTime_formatLocaleMonth k hv]
    rfl
  rw [hcong]
  apply List.Nodup.map_on
  · intro x hx y hy hxy
    exact monthTime_inj x y (keys_valid ts hval x hx) (keys_valid ts hval y hy) hxy
  · exact keysOf_calculateMonthlyData_nodup ts

theorem monthlyChartData_perm_eq (ts1 ts2 : List Transaction)
    (hval : ∀ t ∈ ts1, validMonthKey (monthYear t) = true) (h : ts1.Perm ts2) :
    monthlyChartData ts1 = monthlyChartData ts2 := by
  have hunsorted : ((calculateMonthlyData ts1).map toChartEntry).Perm
      ((calculateMonthlyData ts2).map toChartEntry) := by
    rw [entries_eq_keys_entries, entries_eq_keys_entries]
    rw [show (keysOf (calculateMonthlyData ts2)).map
        (fun k => toChartEntry (k, (lookupA (calculateMonthlyData ts2) k).getD
          freshBucket)) =
      (keysOf (calculateMonthlyData ts2)).map
        (fun k => toChartEntry (k, (lookupA (calculateMonthlyData ts1) k).getD
          freshBucket)) from
      List.map_congr_left (fun k _ => (chartEntry_lookup_eq ts1 ts2 h k).symm)]
    exact (keys_perm_of_perm ts1 ts2 h).map _
  have hperm : (monthlyChartData ts1).Perm (monthlyChartData ts2) := by
    unfold monthlyChartData
    exact ((List.mergeSort_perm _ chartLe).trans hunsorted).trans
      (List.mergeSort_perm _ chartLe).symm
  have hnd1 : ((monthlyChartData ts1).map chartTime).Nodup := by
    have hp : ((monthlyChartData ts1).map chartTime).Perm
        (((calculateMonthlyData ts1).map toChartEntry).map chartTime) :=
      (List.mergeSort_perm _ chartLe).map chartTime
    exact hp.nodup_iff.mpr (chart_times_nodup ts1 hval)
  have hnd2 : ((monthlyChartData ts2).map chartTime).Nodup :=
    (hperm.map chartTime).nodup_iff.mp hnd1
  have hstrict1 : List.Pairwise (fun a b : ChartEntry => chartTime a < chartTime b)
      (monthlyChartData ts1) := by
    have hne : List.Pairwise (fun a b : ChartEntry => chartTime a ≠ chartTime b)
        (monthlyChartData ts1) := List.pairwise_map.mp hnd1
    exact ((monthlyChartData_sorted ts1).and hne).imp
      (fun hx => lt_of_le_of_ne hx.1 hx.2)
  have hstrict2 : List.Pairwise (fun a b : ChartEntry => chartTime a < chartTime b)
      (monthlyChartData ts2) := by
    have hne : List.Pairwise (fun a b : ChartEntry => chartTime a ≠ chartTime b)
        (monthlyChartData ts2) := List.pairwise_map.mp hnd2
    exact ((monthlyChartData_sorted ts2).and hne).imp
      (fun hx => lt_of_le_of_ne hx.1 hx.2)
  haveI : IsAntisymm ChartEntry (fun a b => chartTime a < chartTime b) :=
    ⟨fun a b h1 h2 => ((lt_asymm h1) h2).elim⟩
  exact List.eq_of_perm_of_sorted hperm hstrict1 hstrict2

/-- C6: the chart series is sorted ascending by the calendar time of the
month each entry represents (the time the comparator parses back from the
entry label), and the series does not depend on the order in which the
transactions built the bucket map. -/
theorem chart_sorted_and_order_independent (ts : List Transaction)
    (hval : ∀ t ∈ ts, validMonthKey (monthYear t) = true) :
    List.Pairwise (fun a b : ChartEntry => chartTime a ≤ chartTime b)
      (monthlyChartData ts)
    ∧ ∀ ts2, ts.Perm ts2 → monthlyChartData ts = monthlyChartData ts2 :=
  ⟨monthlyChartData_sorted ts, fun ts2 h => monthlyChartData_perm_eq ts ts2 hval h⟩

/-- Closed instance of C6 on a shuffled version of the spec's worked
example. -/
theorem chart_sorted_and_order_independent_witness :
    (∀ t ∈ [tx3, tx1, tx2], validMonthKey (monthYear t) = true)
    ∧ [tx3, tx1, tx2].Perm [tx1, tx2, tx3]
    ∧ List.Pairwise (fun a b : ChartEntry => chartTime a ≤ chartTime b)
        (monthlyChartData [tx3, tx1, tx2])
    ∧ monthlyChartData [tx3, tx1, tx2] = monthlyChartData [tx1, tx2, tx3] :=
  ⟨by decide, by decide,
   (chart_sorted_and_order_independent [tx3, tx1, tx2] (by decide)).1,
   (chart_sorted_and_order_independent [tx3, tx1, tx2] (by decide)).2
     [tx1, tx2, tx3] (by decide)⟩

end Budget
